import Mathlib

/-!
# Nebulis point-cloud visualizer: camera, point generator and ring-buffer cursor

A shallow embedding of `src/Visualizer/Visualizer.cpp`.

* Floating-point values (`float`, `double`) are modelled by an arbitrary linearly ordered
  field `α`, so arithmetic is exact; the statements that need trigonometry are stated over `ℝ`
  with `Real.cos`, `Real.sin` and `Real.pi`.
* `size_t` values are natural numbers reduced modulo `2 ^ 64` after every operation.
* The C library (`cos`, `sin`, `rand`, `RAND_MAX`) and GLM (`perspective`, `lookAt`) are not part
  of the translation unit; they are parameters of the definitions that call them.
* Global variables of the translation unit are the fields of `Globals`; the callbacks take the
  globals and return their new value, while `processInput` and `getViewMatrix`, which touch the
  global `camera` only, take and return a `Camera`.
-/

namespace Nebulis

variable {α : Type} [LinearOrderedField α]

/-! ## Point stream generator and ring-buffer cursor -/

/-- Number of values of the 64-bit `size_t`: unsigned arithmetic is modulo this number. -/
def SIZE_T_RANGE : ℕ := 2 ^ 64

/-- Largest element count of a `std::vector<float>` with a 64-bit `size_t`:
`PTRDIFF_MAX / sizeof(float)`. -/
def VECTOR_MAX_SIZE : ℕ := (2 ^ 63 - 1) / 4

/-- The value of `sizeof(float)`. -/
def sizeofFloat : ℕ := 4

/-- The constant `POINTS_PER_FRAME` (line 23). -/
def POINTS_PER_FRAME : ℕ := 30000

/-- The constant `maxPoints` of `main` (line 160). -/
def maxPoints : ℕ := 20000000

/-- The expression `maxPoints * 3 * sizeof(float)` in `size_t` arithmetic: the size of the buffer
allocated by `glBufferData` (line 164) and the modulus of the cursor update (line 262). -/
def bufferBytes : ℕ := maxPoints * 3 % SIZE_T_RANGE * sizeofFloat % SIZE_T_RANGE

/-- The expression `static_cast<float>(rand()) / RAND_MAX * 2.0f - 1.0f` for a draw `r`. -/
def coordinate (RAND_MAX : ℕ) (r : ℕ) : α := (r : α) / (RAND_MAX : α) * 2 - 1

/-- The call `points.clear()`. -/
def clear (_points : List α) : List α := []

/-- The `for` loop of `generatePoints` (lines 109-113). `remaining` is `count - i`; `rand k` is
the value returned by the `k`-th call of `rand()` and `calls` counts the calls made so far. -/
def generatePointsLoop (RAND_MAX : ℕ) (rand : ℕ → ℕ) : ℕ → ℕ → List α → List α
  | 0, _, points => points
  | remaining + 1, calls, points =>
    let points := points ++ [coordinate RAND_MAX (rand calls)]
    let points := points ++ [coordinate RAND_MAX (rand (calls + 1))]
    let points := points ++ [coordinate RAND_MAX (rand (calls + 2))]
    generatePointsLoop RAND_MAX rand remaining (calls + 3) points

/-- The function `generatePoints(points, count)` (lines 107-114): returns the new content of
`points`. -/
def generatePoints (RAND_MAX : ℕ) (rand : ℕ → ℕ) (points : List α) (count : ℕ) : List α :=
  let points := clear points
  generatePointsLoop RAND_MAX rand count 0 points

/-- The arguments of one call `glBufferSubData(GL_ARRAY_BUFFER, offset, size, data)`. -/
structure BufferSubData (α : Type) where
  offset : ℕ
  size : ℕ
  data : List α

/-- The ring-buffer update of the frame loop (lines 262-263): the new value of `currentOffset`
and the `glBufferSubData` call that is issued. -/
def upload (currentOffset : ℕ) (points : List α) : ℕ × BufferSubData α :=
  let bytes := points.length * sizeofFloat % SIZE_T_RANGE
  let currentOffset := (currentOffset + bytes) % SIZE_T_RANGE % bufferBytes
  (currentOffset, { offset := currentOffset, size := bytes, data := points })

/-- The cursor after uploading a sequence of batches one after the other. -/
def uploadAll (currentOffset : ℕ) (batches : List (List α)) : ℕ :=
  batches.foldl (fun c b => (upload c b).1) currentOffset

/-- The part of the state of `main` that the ring buffer depends on: the batch `points`, the
remaining draws of `rand()`, the cursor `currentOffset`, and the `glBufferSubData` calls issued so
far, most recent first. -/
structure FrameState (α : Type) where
  points : List α
  rand : ℕ → ℕ
  currentOffset : ℕ
  uploads : List (BufferSubData α)

/-- The state of `main` on entry to the frame loop (lines 229-232). -/
def frameInit (RAND_MAX : ℕ) (rand : ℕ → ℕ) : FrameState α :=
  { points := generatePoints RAND_MAX rand [] 1
    rand := fun k => rand (k + 3 * 1)
    currentOffset := 0
    uploads := [] }

/-- One iteration of the frame loop (lines 261-263 and 283). -/
def frame (RAND_MAX : ℕ) (s : FrameState α) : FrameState α :=
  let u := upload s.currentOffset s.points
  { points := generatePoints RAND_MAX s.rand s.points POINTS_PER_FRAME
    rand := fun k => s.rand (k + 3 * POINTS_PER_FRAME)
    currentOffset := u.1
    uploads := u.2 :: s.uploads }

/-- The state after `n` iterations of the frame loop. -/
def runFrames (RAND_MAX : ℕ) (rand : ℕ → ℕ) : ℕ → FrameState α
  | 0 => frameInit RAND_MAX rand
  | n + 1 => frame RAND_MAX (runFrames RAND_MAX rand n)

/-! ## Camera, input callbacks and view matrix -/

/-- The `struct Camera` (lines 12-17). -/
structure Camera (α : Type) where
  posX : α
  posY : α
  posZ : α
  yaw : α
  pitch : α
  speed : α
  sensitivity : α

/-- A value of `glm::vec3`. -/
structure Vec3 (α : Type) where
  x : α
  y : α
  z : α

/-- A value of `glm::mat4`. -/
abbrev Mat4 (α : Type) : Type := Fin 4 → Fin 4 → α

/-- The functions `cos` and `sin` of the C library and the constant `π` that `glm::radians`
multiplies by (as `π / 180`). -/
structure Trig (α : Type) where
  cos : α → α
  sin : α → α
  pi : α

/-- The GLM transforms called by the program: `glm::perspective(fovy, aspect, zNear, zFar)` and
`glm::lookAt(eye, center, up)`. -/
structure Glm (α : Type) where
  perspective : α → α → α → α → Mat4 α
  lookAt : Vec3 α → Vec3 α → Vec3 α → Mat4 α

/-- The arguments of the last call `glViewport(x, y, width, height)`. -/
structure Viewport where
  x : ℤ
  y : ℤ
  width : ℤ
  height : ℤ

/-- The global variables `camera`, `firstMouse`, `lastX`, `lastY`, `projection` (lines 12-25)
and the viewport of the GL context. -/
structure Globals (α : Type) where
  camera : Camera α
  firstMouse : Bool
  lastX : α
  lastY : α
  projection : Mat4 α
  viewport : Viewport

/-- The answers of `glfwGetKey(window, key) == GLFW_PRESS` for the keys read by
`processInput`. -/
structure Keys where
  W : Bool
  S : Bool
  A : Bool
  D : Bool
  LEFT_SHIFT : Bool
  SPACE : Bool

/-- The function `glm::radians`. -/
def radians (t : Trig α) (degrees : α) : α := degrees * (t.pi / 180)

/-- The initial value of `camera` (lines 13-16). -/
def camera : Camera α :=
  { posX := 0, posY := 0, posZ := 2, yaw := -90, pitch := 0, speed := 5 / 2, sensitivity := 1 / 10 }

/-- The globals at program start (lines 12-25), `viewport` being what the GL context starts
with. -/
def globalsInit (t : Trig α) (glm : Glm α) (viewport : Viewport) : Globals α :=
  { camera := camera
    firstMouse := true
    lastX := 400
    lastY := 300
    projection := glm.perspective (radians t 45) ((2560 : α) / 1440) (1 / 10) 100
    viewport := viewport }

/-- The function `framebuffer_size_callback` (lines 28-31). -/
def framebuffer_size_callback (t : Trig α) (glm : Glm α) (g : Globals α) (width height : ℤ) :
    Globals α :=
  let g := { g with viewport := { x := 0, y := 0, width := width, height := height } }
  { g with projection := glm.perspective (radians t 45) ((width : α) / (height : α)) (1 / 10) 100 }

/-- The function `mouse_callback` (lines 34-55). -/
def mouse_callback (g : Globals α) (xpos ypos : α) : Globals α :=
  let g := if g.firstMouse then { g with lastX := xpos, lastY := ypos, firstMouse := false } else g
  let xoffset := xpos - g.lastX
  let yoffset := g.lastY - ypos
  let g := { g with lastX := xpos, lastY := ypos }
  let xoffset := xoffset * g.camera.sensitivity
  let yoffset := yoffset * g.camera.sensitivity
  let g := { g with camera := { g.camera with yaw := g.camera.yaw + xoffset } }
  let g := { g with camera := { g.camera with pitch := g.camera.pitch + yoffset } }
  let g := if g.camera.pitch > 89 then { g with camera := { g.camera with pitch := 89 } } else g
  let g := if g.camera.pitch < -89 then { g with camera := { g.camera with pitch := -89 } } else g
  g

/-- The function `processInput` (lines 58-92), on the global `camera`, the only global it reads
or writes; `window` holds the key states it polls. -/
def processInput (t : Trig α) (camera : Camera α) (window : Keys) (deltaTime : α) : Camera α :=
  let velocity := camera.speed * deltaTime
  let forwardX := t.cos (radians t camera.yaw)
  let forwardZ := t.sin (radians t camera.yaw)
  let upY : α := 1
  let camera := if window.W then
      let camera := { camera with posX := camera.posX + forwardX * velocity }
      { camera with posZ := camera.posZ + forwardZ * velocity }
    else camera
  let camera := if window.S then
      let camera := { camera with posX := camera.posX - forwardX * velocity }
      { camera with posZ := camera.posZ - forwardZ * velocity }
    else camera
  let camera := if window.A then
      let camera := { camera with posX := camera.posX + forwardZ * velocity }
      { camera with posZ := camera.posZ - forwardX * velocity }
    else camera
  let camera := if window.D then
      let camera := { camera with posX := camera.posX - forwardZ * velocity }
      { camera with posZ := camera.posZ + forwardX * velocity }
    else camera
  let camera := if window.LEFT_SHIFT then { camera with posY := camera.posY - upY * velocity }
    else camera
  let camera := if window.SPACE then { camera with posY := camera.posY + upY * velocity }
    else camera
  camera

/-- The sum of two `glm::vec3`. -/
def Vec3.add (a b : Vec3 α) : Vec3 α := { x := a.x + b.x, y := a.y + b.y, z := a.z + b.z }

/-- The difference of two `glm::vec3`. -/
def Vec3.sub (a b : Vec3 α) : Vec3 α := { x := a.x - b.x, y := a.y - b.y, z := a.z - b.z }

/-- The function `glm::cross`. -/
def Vec3.cross (a b : Vec3 α) : Vec3 α :=
  { x := a.y * b.z - b.y * a.z, y := a.z * b.x - b.z * a.x, z := a.x * b.y - b.x * a.y }

/-- The function `glm::dot`. -/
def Vec3.dot (a b : Vec3 α) : α := a.x * b.x + a.y * b.y + a.z * b.z

/-- The three vectors `position`, `position + direction` and `up` that `getViewMatrix` passes to
`glm::lookAt` (lines 96-103), as eye, center and up. -/
def lookAtArguments (t : Trig α) (camera : Camera α) : Vec3 α × Vec3 α × Vec3 α :=
  let position : Vec3 α := { x := camera.posX, y := camera.posY, z := camera.posZ }
  let direction : Vec3 α :=
    { x := t.cos (radians t camera.yaw) * t.cos (radians t camera.pitch)
      y := t.sin (radians t camera.pitch)
      z := t.sin (radians t camera.yaw) * t.cos (radians t camera.pitch) }
  let up : Vec3 α := { x := 0, y := 1, z := 0 }
  (position, position.add direction, up)

/-- The function `getViewMatrix` (lines 95-104), on the global `camera`, the only global it
reads. -/
def getViewMatrix (t : Trig α) (glm : Glm α) (camera : Camera α) : Mat4 α :=
  let args := lookAtArguments t camera
  glm.lookAt args.1 args.2.1 args.2.2

/-- The globals after a sequence of pointer-motion events, each a cursor position. -/
def mouseEvents (g : Globals α) (events : List (α × α)) : Globals α :=
  events.foldl (fun g e => mouse_callback g e.1 e.2) g

/-- The camera after a sequence of frames in which `processInput` sees the same keys and the
given delta times. -/
def processInputs (t : Trig α) (camera : Camera α) (window : Keys) (deltaTimes : List α) :
    Camera α :=
  deltaTimes.foldl (fun c dt => processInput t c window dt) camera

/-- The key state with only the forward key `W` pressed. -/
def onlyW : Keys :=
  { W := true, S := false, A := false, D := false, LEFT_SHIFT := false, SPACE := false }

/-- The clamp of a pitch to `[-89, 89]`. -/
def clampPitch (p : α) : α := max (-89) (min 89 p)

/-- The vector `center - eye` of the call of `glm::lookAt` made by `getViewMatrix`: the look
direction, which `glm::lookAt` normalises and whose cross product with `up` it normalises next. -/
def viewDirection (t : Trig α) (camera : Camera α) : Vec3 α :=
  (lookAtArguments t camera).2.1.sub (lookAtArguments t camera).1

/-- The vector `up` of the call of `glm::lookAt` made by `getViewMatrix`. -/
def viewUp (t : Trig α) (camera : Camera α) : Vec3 α := (lookAtArguments t camera).2.2

/-- A stand-in for GLM on which the callbacks are evaluated: each transform returns a matrix
whose rows record the arguments it was called with. -/
def recordingGlm : Glm α :=
  { perspective := fun fovy aspect zNear zFar i _ =>
      if i = 0 then fovy else if i = 1 then aspect else if i = 2 then zNear else zFar
    lookAt := fun eye center up i j =>
      let row := if i = 0 then eye else if i = 1 then center else up
      if i = 3 then 0 else if j = 0 then row.x else if j = 1 then row.y else
        if j = 2 then row.z else 0 }

/-- A state of the globals over `ℚ` on which the callbacks are evaluated: the initial camera,
a last cursor position `(400, 300)` already recorded, a zero projection matrix and a viewport of
2560 by 1440. -/
def sampleGlobals : Globals ℚ :=
  { camera := camera
    firstMouse := false
    lastX := 400
    lastY := 300
    projection := fun _ _ => 0
    viewport := { x := 0, y := 0, width := 2560, height := 1440 } }

/-! ### Lemmas -/

theorem bufferBytes_eq : bufferBytes = 240000000 := by
  norm_num [bufferBytes, maxPoints, sizeofFloat, SIZE_T_RANGE]

theorem generatePointsLoop_eq (RAND_MAX : ℕ) (rand : ℕ → ℕ) (n calls : ℕ) (points : List α) :
    generatePointsLoop RAND_MAX rand n calls points =
      points ++ (List.range (3 * n)).map (fun k => coordinate RAND_MAX (rand (calls + k))) := by
  induction n generalizing calls points with
  | zero => simp [generatePointsLoop]
  | succ n ih =>
    rw [generatePointsLoop, ih]
    have h3 : 3 * (n + 1) = 3 + 3 * n := by ring
    rw [h3, List.range_add, List.map_append]
    simp [List.range_succ, add_assoc, add_comm, add_left_comm]

theorem generatePoints_eq (RAND_MAX : ℕ) (rand : ℕ → ℕ) (points : List α) (count : ℕ) :
    generatePoints RAND_MAX rand points count =
      (List.range (3 * count)).map (fun k => coordinate RAND_MAX (rand k)) := by
  simp [generatePoints, clear, generatePointsLoop_eq]

theorem generatePoints_length (RAND_MAX : ℕ) (rand : ℕ → ℕ) (points : List α) (count : ℕ) :
    (generatePoints RAND_MAX rand points count).length = 3 * count := by
  simp [generatePoints_eq]

theorem coordinate_bounds (RAND_MAX r : ℕ) (hmax : 0 < RAND_MAX) (hr : r ≤ RAND_MAX) :
    (-1 : α) ≤ coordinate RAND_MAX r ∧ (coordinate RAND_MAX r : α) ≤ 1 := by
  have hpos : (0 : α) < (RAND_MAX : α) := by exact_mod_cast hmax
  have hle : (r : α) ≤ (RAND_MAX : α) := by exact_mod_cast hr
  have h0 : (0 : α) ≤ (r : α) / (RAND_MAX : α) := div_nonneg (Nat.cast_nonneg r) hpos.le
  have h1 : (r : α) / (RAND_MAX : α) ≤ 1 := (div_le_one hpos).mpr hle
  unfold coordinate
  constructor <;> linarith

theorem upload_cursor {β : Type} (c : ℕ) (points : List β) (hc : c < 240000000)
    (hfit : points.length ≤ VECTOR_MAX_SIZE) :
    (upload c points).1 = (c + 4 * points.length) % 240000000 := by
  have hV : points.length ≤ 2305843009213693951 := by
    have : VECTOR_MAX_SIZE = 2305843009213693951 := by norm_num [VECTOR_MAX_SIZE]
    omega
  simp only [upload, bufferBytes_eq, sizeofFloat, SIZE_T_RANGE]
  have h1 : points.length * 4 % 2 ^ 64 = 4 * points.length := by
    rw [Nat.mod_eq_of_lt] <;> omega
  rw [h1, Nat.mod_eq_of_lt (a := c + 4 * points.length)]
  omega

theorem upload_cursor_lt {β : Type} (c : ℕ) (points : List β) : (upload c points).1 < 240000000 := by
  simp only [upload, bufferBytes_eq]
  exact Nat.mod_lt _ (by norm_num)

theorem uploadAll_eq {β : Type} (batches : List (List β)) (c : ℕ) (hc : c < 240000000)
    (hfit : ∀ b ∈ batches, b.length ≤ VECTOR_MAX_SIZE) :
    uploadAll c batches = (c + 4 * (batches.map List.length).sum) % 240000000 := by
  induction batches generalizing c with
  | nil => simp [uploadAll, Nat.mod_eq_of_lt hc]
  | cons b bs ih =>
    have hb := hfit b (List.mem_cons_self _ _)
    have hbs : ∀ x ∈ bs, x.length ≤ VECTOR_MAX_SIZE := fun x hx =>
      hfit x (List.mem_cons_of_mem _ hx)
    have step := ih (upload c b).1 (upload_cursor_lt c b) hbs
    simp only [uploadAll, List.foldl_cons] at step ⊢
    rw [step, upload_cursor c b hc hb]
    simp only [List.map_cons, List.sum_cons]
    omega

theorem runFrames_points_length (RAND_MAX : ℕ) (rand : ℕ → ℕ) (n : ℕ) :
    (runFrames RAND_MAX rand n : FrameState α).points.length = if n = 0 then 3 else 90000 := by
  cases n with
  | zero => simp [runFrames, frameInit, generatePoints_length]
  | succ n => simp [runFrames, frame, generatePoints_length, POINTS_PER_FRAME]

theorem runFrames_currentOffset (RAND_MAX : ℕ) (rand : ℕ → ℕ) (n : ℕ) :
    (runFrames RAND_MAX rand (n + 1) : FrameState α).currentOffset =
      (12 + 360000 * n) % 240000000 := by
  have hV : VECTOR_MAX_SIZE = 2305843009213693951 := by norm_num [VECTOR_MAX_SIZE]
  induction n with
  | zero =>
    have hl := runFrames_points_length (α := α) RAND_MAX rand 0
    simp only [if_true] at hl
    have hc : (runFrames RAND_MAX rand 0 : FrameState α).currentOffset = 0 := rfl
    show (upload _ _).1 = _
    rw [upload_cursor _ _ (by rw [hc]; norm_num) (by rw [hl, hV]; norm_num), hl, hc]
  | succ n ih =>
    have hl := runFrames_points_length (α := α) RAND_MAX rand (n + 1)
    simp only [Nat.succ_ne_zero, if_false] at hl
    show (upload _ _).1 = _
    rw [upload_cursor _ _ (by rw [ih]; omega) (by rw [hl, hV]; norm_num), hl, ih]
    omega

theorem runFrames_last_upload (RAND_MAX : ℕ) (rand : ℕ → ℕ) (n : ℕ) :
    (runFrames RAND_MAX rand (n + 1) : FrameState α).uploads.head? =
      some { offset := (12 + 360000 * n) % 240000000
             size := if n = 0 then 12 else 360000
             data := (runFrames RAND_MAX rand n : FrameState α).points } := by
  have ho := runFrames_currentOffset (α := α) RAND_MAX rand n
  have hl := runFrames_points_length (α := α) RAND_MAX rand n
  have hu : (runFrames RAND_MAX rand (n + 1) : FrameState α).uploads.head? =
      some (upload (runFrames RAND_MAX rand n : FrameState α).currentOffset
        (runFrames RAND_MAX rand n : FrameState α).points).2 := rfl
  have hcur : (upload (runFrames RAND_MAX rand n : FrameState α).currentOffset
      (runFrames RAND_MAX rand n : FrameState α).points).1 = (12 + 360000 * n) % 240000000 := ho
  have hoff : (upload (runFrames RAND_MAX rand n : FrameState α).currentOffset
      (runFrames RAND_MAX rand n : FrameState α).points).2.offset
        = (12 + 360000 * n) % 240000000 := hcur
  have hsize : (upload (runFrames RAND_MAX rand n : FrameState α).currentOffset
      (runFrames RAND_MAX rand n : FrameState α).points).2.size
        = if n = 0 then 12 else 360000 := by
    simp only [upload, hl, sizeofFloat, SIZE_T_RANGE]
    split_ifs <;> norm_num
  rw [hu, ← hoff, ← hsize]
  rfl

theorem mouse_callback_pitch_range (g : Globals α) (xpos ypos : α) :
    -89 ≤ (mouse_callback g xpos ypos).camera.pitch ∧
      (mouse_callback g xpos ypos).camera.pitch ≤ 89 := by
  simp only [mouse_callback]
  constructor <;> split_ifs <;> simp_all

theorem mouseEvents_append (g : Globals α) (events : List (α × α)) (e : α × α) :
    mouseEvents g (events ++ [e]) = mouse_callback (mouseEvents g events) e.1 e.2 := by
  simp [mouseEvents, List.foldl_append]

theorem uploadAll_lt {β : Type} (batches : List (List β)) (c : ℕ) (hc : c < 240000000) :
    uploadAll c batches < 240000000 := by
  induction batches generalizing c with
  | nil => simpa [uploadAll] using hc
  | cons b bs ih => exact ih (upload c b).1 (upload_cursor_lt c b)

theorem sum_length_of_points {β : Type} (batches : List (List β))
    (hpoints : ∀ b ∈ batches, 3 ∣ b.length) :
    (batches.map List.length).sum = 3 * (batches.map (fun b => b.length / 3)).sum := by
  induction batches with
  | nil => simp
  | cons b bs ih =>
    have hb : 3 ∣ b.length := hpoints b (List.mem_cons_self _ _)
    have hbs := ih (fun x hx => hpoints x (List.mem_cons_of_mem _ hx))
    simp only [List.map_cons, List.sum_cons, hbs]
    omega

theorem processInput_eq (t : Trig α) (c : Camera α) (window : Keys) (dt : α) :
    processInput t c window dt =
      { c with
        posX := c.posX +
          ((if window.W then t.cos (radians t c.yaw) else 0)
            - (if window.S then t.cos (radians t c.yaw) else 0)
            + (if window.A then t.sin (radians t c.yaw) else 0)
            - (if window.D then t.sin (radians t c.yaw) else 0)) * (c.speed * dt)
        posY := c.posY +
          ((if window.SPACE then 1 else 0) - (if window.LEFT_SHIFT then 1 else 0)) * (c.speed * dt)
        posZ := c.posZ +
          ((if window.W then t.sin (radians t c.yaw) else 0)
            - (if window.S then t.sin (radians t c.yaw) else 0)
            - (if window.A then t.cos (radians t c.yaw) else 0)
            + (if window.D then t.cos (radians t c.yaw) else 0)) * (c.speed * dt) } := by
  obtain ⟨px, py, pz, yaw, pitch, speed, sens⟩ := c
  obtain ⟨w, s, a, d, sh, sp⟩ := window
  unfold processInput
  cases w <;> cases s <;> cases a <;> cases d <;> cases sh <;> cases sp <;>
    simp only [if_true, if_false, Bool.false_eq_true, Camera.mk.injEq, and_true,
      true_and] <;>
    refine ⟨?_, ?_, ?_⟩ <;> ring

theorem radians_neg_ninety :
    radians (⟨Real.cos, Real.sin, Real.pi⟩ : Trig ℝ) (-90) = -(Real.pi / 2) := by
  simp only [radians]; ring

theorem processInput_forward (c : Camera ℝ) (hyaw : c.yaw = -90) (dt : ℝ) :
    processInput ⟨Real.cos, Real.sin, Real.pi⟩ c onlyW dt =
      { c with posZ := c.posZ - c.speed * dt } := by
  rw [processInput_eq, hyaw, radians_neg_ninety]
  obtain ⟨px, py, pz, yaw, pitch, speed, sens⟩ := c
  simp [onlyW, Real.cos_neg, Real.sin_neg]
  ring

theorem processInputs_forward (deltaTimes : List ℝ) (c : Camera ℝ) (hyaw : c.yaw = -90) :
    processInputs ⟨Real.cos, Real.sin, Real.pi⟩ c onlyW deltaTimes =
      { c with posZ := c.posZ - c.speed * deltaTimes.sum } := by
  induction deltaTimes generalizing c with
  | nil => simp [processInputs]
  | cons dt dts ih =>
    have step := ih { c with posZ := c.posZ - c.speed * dt } hyaw
    simp only [processInputs, List.foldl_cons] at step ⊢
    rw [processInput_forward c hyaw, step]
    simp only [List.sum_cons, Camera.mk.injEq, and_true, true_and]
    ring

theorem viewDirection_eq (t : Trig α) (c : Camera α) :
    viewDirection t c =
      { x := t.cos (radians t c.yaw) * t.cos (radians t c.pitch)
        y := t.sin (radians t c.pitch)
        z := t.sin (radians t c.yaw) * t.cos (radians t c.pitch) } := by
  simp [viewDirection, lookAtArguments, Vec3.add, Vec3.sub]

theorem cos_radians_pos (pitch : ℝ) (hlo : -89 ≤ pitch) (hhi : pitch ≤ 89) :
    0 < Real.cos (radians (⟨Real.cos, Real.sin, Real.pi⟩ : Trig ℝ) pitch) := by
  have hpi := Real.pi_pos
  apply Real.cos_pos_of_mem_Ioo
  simp only [radians, Set.mem_Ioo]
  constructor <;> nlinarith

/-! ## The claims -/

/-- C1 (fails on the code). In the frame loop, whatever `rand()` returns, the 667th frame calls
`glBufferSubData` with offset 239,760,012 and size 360,000: the offset is inside the buffer of
240,000,000 bytes but the byte range ends at 240,120,012, past the end of the buffer. -/
theorem frame_667_upload_past_end (RAND_MAX : ℕ) (rand : ℕ → ℕ) :
    ∃ u : BufferSubData α,
      (runFrames RAND_MAX rand 667 : FrameState α).uploads.head? = some u ∧
      u.offset = 239760012 ∧ u.size = 360000 ∧
      u.offset < bufferBytes ∧ bufferBytes < u.offset + u.size := by
  have h667 : (667 : ℕ) = 666 + 1 := rfl
  rw [h667]
  refine ⟨_, runFrames_last_upload RAND_MAX rand 666, ?_, ?_, ?_, ?_⟩ <;>
    simp only [bufferBytes_eq] <;> norm_num

/-- C2. For every finite sequence of batches, each a whole number of points (and each small
enough to be a `std::vector<float>`), uploaded one after the other starting from cursor 0, the
cursor after the last upload is `12 * (N mod 20,000,000)` bytes, where `N` is the total number of
points, and the cursor is below 240,000,000 after the last and after every earlier upload. -/
theorem cursor_after_uploads {β : Type} (batches : List (List β))
    (hpoints : ∀ b ∈ batches, 3 ∣ b.length)
    (hfit : ∀ b ∈ batches, b.length ≤ VECTOR_MAX_SIZE) :
    uploadAll 0 batches = 12 * ((batches.map (fun b => b.length / 3)).sum % 20000000) ∧
      uploadAll 0 batches < 240000000 ∧
      ∀ k, uploadAll 0 (batches.take k) < 240000000 := by
  refine ⟨?_, uploadAll_lt batches 0 (by norm_num), fun k => uploadAll_lt _ 0 (by norm_num)⟩
  rw [uploadAll_eq batches 0 (by norm_num) hfit, sum_length_of_points batches hpoints]
  omega

/-- Witness of C2: a batch of one point followed by a batch of two points leaves cursor 36. -/
theorem cursor_after_uploads_witness :
    (∀ b ∈ [[(1 : ℚ), 2, 3], [4, 5, 6, 7, 8, 9]], 3 ∣ b.length) ∧
      (∀ b ∈ [[(1 : ℚ), 2, 3], [4, 5, 6, 7, 8, 9]], b.length ≤ VECTOR_MAX_SIZE) ∧
      uploadAll 0 [[(1 : ℚ), 2, 3], [4, 5, 6, 7, 8, 9]] = 12 * ((1 + (2 + 0)) % 20000000) ∧
      uploadAll 0 [[(1 : ℚ), 2, 3], [4, 5, 6, 7, 8, 9]] < 240000000 := by
  have hp : ∀ b ∈ [[(1 : ℚ), 2, 3], [4, 5, 6, 7, 8, 9]], 3 ∣ b.length := by
    intro b hb
    simp at hb
    rcases hb with rfl | rfl <;> decide
  have hf : ∀ b ∈ [[(1 : ℚ), 2, 3], [4, 5, 6, 7, 8, 9]], b.length ≤ VECTOR_MAX_SIZE := by
    intro b hb
    simp at hb
    rcases hb with rfl | rfl <;> simp [VECTOR_MAX_SIZE]
  have h := cursor_after_uploads [[(1 : ℚ), 2, 3], [4, 5, 6, 7, 8, 9]] hp hf
  exact ⟨hp, hf, by simpa using h.1, h.2.1⟩

/-- C3 (fails on the code). For every cursor and every batch, the offset given to
`glBufferSubData` is the cursor after it has been advanced, not the cursor held before the
upload; the first batch of one point, uploaded with the cursor at 0, is written at byte offset 12
and not at offset 0. -/
theorem upload_copies_at_advanced_cursor {β : Type} (c : ℕ) (points : List β) (x y z : β) :
    (upload c points).2.offset = (upload c points).1 ∧
      (upload 0 [x, y, z]).2.offset = 12 ∧ (upload 0 [x, y, z]).2.offset ≠ 0 := by
  refine ⟨rfl, ?_, ?_⟩ <;>
    simp [upload, bufferBytes_eq, sizeofFloat, SIZE_T_RANGE]

/-- C9. For every count `n`, every previous content of `points` and every sequence of draws
with `0 ≤ r ≤ RAND_MAX`, `generatePoints(points, n)` leaves exactly `3 * n` coordinates, the
`k`-th being `r_k / RAND_MAX * 2 - 1` for the `k`-th draw (so none comes from the previous
content), and every coordinate lies in `[-1, 1]`. -/
theorem generatePoints_spec (RAND_MAX : ℕ) (hmax : 0 < RAND_MAX) (rand : ℕ → ℕ)
    (hrand : ∀ k, rand k ≤ RAND_MAX) (points : List α) (n : ℕ) :
    (generatePoints RAND_MAX rand points n).length = 3 * n ∧
      generatePoints RAND_MAX rand points n =
        (List.range (3 * n)).map (fun k => (rand k : α) / (RAND_MAX : α) * 2 - 1) ∧
      ∀ x ∈ generatePoints RAND_MAX rand points n, -1 ≤ x ∧ x ≤ 1 := by
  refine ⟨generatePoints_length _ _ _ _, ?_, ?_⟩
  · rw [generatePoints_eq]; rfl
  · intro x hx
    rw [generatePoints_eq, List.mem_map] at hx
    obtain ⟨k, _, rfl⟩ := hx
    exact coordinate_bounds RAND_MAX (rand k) hmax (hrand k)

/-- Witness of C9: one point drawn as 0, 16384, 32767 with `RAND_MAX = 32767` replaces the
previous content `[5, 5]`. -/
theorem generatePoints_spec_witness :
    0 < 32767 ∧ (∀ k, (fun k => if k = 0 then 0 else if k = 1 then 16384 else 32767) k ≤ 32767) ∧
      generatePoints 32767 (fun k => if k = 0 then 0 else if k = 1 then 16384 else 32767)
        [(5 : ℚ), 5] 1 = [-1, 1 / 32767, 1] := by
  have hr : ∀ k : ℕ, (fun k => if k = 0 then 0 else if k = 1 then 16384 else 32767) k ≤ 32767 := by
    intro k
    show (if k = 0 then 0 else if k = 1 then 16384 else 32767) ≤ 32767
    split_ifs <;> norm_num
  have h := generatePoints_spec (α := ℚ) 32767 (by norm_num) _ hr [5, 5] 1
  refine ⟨by norm_num, hr, ?_⟩
  rw [h.2.1]
  norm_num [List.range_succ]

/-- C4. Starting from the initial globals (yaw -90, pitch 0, sensitivity 0.1), after every
finite sequence of pointer-motion events with arbitrary cursor coordinates the camera pitch
satisfies `-89 ≤ pitch ≤ 89`. -/
theorem pitch_clamped_after_mouse_events (t : Trig α) (glm : Glm α) (viewport : Viewport)
    (events : List (α × α)) :
    -89 ≤ (mouseEvents (globalsInit t glm viewport) events).camera.pitch ∧
      (mouseEvents (globalsInit t glm viewport) events).camera.pitch ≤ 89 := by
  induction events using List.reverseRecOn with
  | nil => simp [mouseEvents, globalsInit, camera]
  | append_singleton es e _ =>
    rw [mouseEvents_append]
    exact mouse_callback_pitch_range _ _ _

/-- C5. For every state of the globals with pitch in `[-89, 89]` and every cursor position
`(x, y)`: when `firstMouse` is true, `mouse_callback` only records `(x, y)` as the last position
and clears `firstMouse`, leaving yaw and pitch unchanged; when `firstMouse` is false, it sets yaw
to `yaw + (x - lastX) * sensitivity`, unclamped, and pitch to
`pitch + (lastY - y) * sensitivity` clamped to `[-89, 89]`, and records `(x, y)` as the last
position. -/
theorem mouse_callback_spec (g : Globals α) (x y : α)
    (hlo : -89 ≤ g.camera.pitch) (hhi : g.camera.pitch ≤ 89) :
    (g.firstMouse = true →
        mouse_callback g x y = { g with lastX := x, lastY := y, firstMouse := false }) ∧
      (g.firstMouse = false →
        mouse_callback g x y =
          { g with
            lastX := x
            lastY := y
            camera :=
              { g.camera with
                yaw := g.camera.yaw + (x - g.lastX) * g.camera.sensitivity
                pitch := clampPitch (g.camera.pitch + (g.lastY - y) * g.camera.sensitivity) } }) := by
  obtain ⟨⟨px, py, pz, yaw, pitch, speed, sens⟩, fm, lx, ly, proj, vp⟩ := g
  simp only at hlo hhi
  constructor
  · intro hfm
    simp only at hfm
    subst hfm
    have h1 : ¬ pitch > 89 := not_lt.mpr hhi
    have h2 : ¬ pitch < -89 := not_lt.mpr hlo
    simp [mouse_callback, h1, h2]
  · intro hfm
    simp only at hfm
    subst hfm
    simp only [mouse_callback, clampPitch]
    by_cases h1 : pitch + (ly - y) * sens > 89
    · have h3 : ¬ (89 : α) < -89 := by norm_num
      simp [h1, h3, min_eq_left h1.le]
    · have h1le : pitch + (ly - y) * sens ≤ 89 := not_lt.mp h1
      by_cases h2 : pitch + (ly - y) * sens < -89
      · simp [h1, h2, min_eq_right h1le, max_eq_left h2.le]
      · simp [h1, h2, min_eq_right h1le, max_eq_right (not_lt.mp h2)]

/-- Witness of C5: from the initial camera with last position `(400, 300)`, the event
`(410, 290)` turns yaw from -90 to -89 and raises pitch from 0 to 1; the event `(410, -1000)`
would raise pitch to 130 and is clamped to 89. -/
theorem mouse_callback_spec_witness :
    (-89 ≤ sampleGlobals.camera.pitch ∧ sampleGlobals.camera.pitch ≤ 89) ∧
      (mouse_callback sampleGlobals 410 290).camera.yaw = -89 ∧
      (mouse_callback sampleGlobals 410 290).camera.pitch = 1 ∧
      (mouse_callback sampleGlobals 410 (-1000)).camera.pitch = 89 := by
  have hlo : -89 ≤ sampleGlobals.camera.pitch := by norm_num [sampleGlobals, camera]
  have hhi : sampleGlobals.camera.pitch ≤ 89 := by norm_num [sampleGlobals, camera]
  have h1 := (mouse_callback_spec sampleGlobals 410 290 hlo hhi).2 rfl
  have h2 := (mouse_callback_spec sampleGlobals 410 (-1000) hlo hhi).2 rfl
  refine ⟨⟨hlo, hhi⟩, ?_, ?_, ?_⟩
  · rw [h1]; norm_num [sampleGlobals, camera]
  · rw [h1]; norm_num [sampleGlobals, camera, clampPitch]
  · rw [h2]; norm_num [sampleGlobals, camera, clampPitch]

/-- C7. Movement is frame-rate independent: for every camera state, every fixed set of pressed
keys and all delta times `dt1`, `dt2` (of any sign), `processInput` with `dt1` and then with
`dt2` leaves the same camera, in particular the same position, as `processInput` once with
`dt1 + dt2`; this holds for whatever `cos` and `sin` compute. -/
theorem processInput_frame_rate_independent (t : Trig α) (c : Camera α) (window : Keys)
    (dt1 dt2 : α) :
    processInput t (processInput t c window dt1) window dt2 =
      processInput t c window (dt1 + dt2) := by
  rw [processInput_eq, processInput_eq, processInput_eq]
  simp only [Camera.mk.injEq, and_true, true_and]
  refine ⟨?_, ?_, ?_⟩ <;> ring

/-- C6 (the claim as stated is false). With only `W` pressed for a single frame of exactly
1 second from the initial camera, the resulting position is not `(0, 0, 2 + 2.5)`. -/
theorem single_forward_frame_not_plus_z :
    ¬ ((processInputs ⟨Real.cos, Real.sin, Real.pi⟩ camera onlyW [1]).posX = 0 ∧
      (processInputs ⟨Real.cos, Real.sin, Real.pi⟩ camera onlyW [1]).posY = 0 ∧
      (processInputs ⟨Real.cos, Real.sin, Real.pi⟩ camera onlyW [1]).posZ = 2 + 5 / 2) := by
  rw [processInputs_forward [1] camera rfl]
  norm_num [camera]

/-- C6 (amended). Starting from camera position `(0, 0, 2)`, yaw -90 degrees, pitch 0 and speed
2.5, applying `processInput` with only the forward key `W` pressed over frames whose delta times
add up to exactly 1 second results in camera position `(0, 0, 2 - 2.5) = (0, 0, -0.5)`: forward
is `(cos(-90°), 0, sin(-90°)) = (0, 0, -1)`. -/
theorem forward_one_second (deltaTimes : List ℝ) (hsum : deltaTimes.sum = 1) :
    (processInputs ⟨Real.cos, Real.sin, Real.pi⟩ camera onlyW deltaTimes).posX = 0 ∧
      (processInputs ⟨Real.cos, Real.sin, Real.pi⟩ camera onlyW deltaTimes).posY = 0 ∧
      (processInputs ⟨Real.cos, Real.sin, Real.pi⟩ camera onlyW deltaTimes).posZ = 2 - 5 / 2 := by
  rw [processInputs_forward deltaTimes camera rfl, hsum]
  norm_num [camera]

/-- Witness of C6 (amended): four frames of a quarter of a second each. -/
theorem forward_one_second_witness :
    ([1 / 4, 1 / 4, 1 / 4, 1 / 4] : List ℝ).sum = 1 ∧
      (processInputs ⟨Real.cos, Real.sin, Real.pi⟩ camera onlyW
        [1 / 4, 1 / 4, 1 / 4, 1 / 4]).posZ = -1 / 2 := by
  have hsum : ([1 / 4, 1 / 4, 1 / 4, 1 / 4] : List ℝ).sum = 1 := by norm_num
  have h := forward_one_second [1 / 4, 1 / 4, 1 / 4, 1 / 4] hsum
  exact ⟨hsum, by rw [h.2.2]; norm_num⟩

/-- C8. For every resize event with width `w` and height `h > 0`, `framebuffer_size_callback`
sets the projection matrix to the perspective transform with field of view 45 degrees, aspect
`w / h`, near plane 0.1 and far plane 100, and leaves the camera unchanged, so the matrix returned
by `getViewMatrix` is the same before and after the resize. -/
theorem framebuffer_size_callback_spec (t : Trig α) (glm : Glm α) (g : Globals α)
    (width height : ℤ) (_hheight : 0 < height) :
    (framebuffer_size_callback t glm g width height).projection =
        glm.perspective (radians t 45) ((width : α) / (height : α)) (1 / 10) 100 ∧
      (framebuffer_size_callback t glm g width height).camera = g.camera ∧
      getViewMatrix t glm (framebuffer_size_callback t glm g width height).camera =
        getViewMatrix t glm g.camera := by
  refine ⟨rfl, rfl, rfl⟩

/-- Witness of C8: resizing the initial window to 800 by 600 stores aspect `4 / 3` in the
projection and keeps the initial camera. -/
theorem framebuffer_size_callback_spec_witness :
    (0 : ℤ) < 600 ∧
      (framebuffer_size_callback ⟨Real.cos, Real.sin, Real.pi⟩ recordingGlm
        (globalsInit ⟨Real.cos, Real.sin, Real.pi⟩ recordingGlm ⟨0, 0, 2560, 1440⟩)
        800 600).projection 1 0 = 4 / 3 ∧
      (framebuffer_size_callback ⟨Real.cos, Real.sin, Real.pi⟩ recordingGlm
        (globalsInit ⟨Real.cos, Real.sin, Real.pi⟩ recordingGlm ⟨0, 0, 2560, 1440⟩)
        800 600).camera = camera := by
  have h := framebuffer_size_callback_spec (⟨Real.cos, Real.sin, Real.pi⟩ : Trig ℝ) recordingGlm
    (globalsInit ⟨Real.cos, Real.sin, Real.pi⟩ recordingGlm ⟨0, 0, 2560, 1440⟩) 800 600
    (by norm_num)
  refine ⟨by norm_num, ?_, h.2.1⟩
  rw [h.1]
  norm_num [recordingGlm]

/-- C10. For every yaw and every pitch with `-89 ≤ pitch ≤ 89` degrees, the look direction
that `getViewMatrix` hands to `glm::lookAt` as `center - eye` is
`(cos yaw * cos pitch, sin pitch, sin yaw * cos pitch)` and has length exactly 1; its horizontal
part has length `cos pitch > 0`; hence the look-at target differs from the position, and the
cross product of the direction with the up vector `(0, 1, 0)` has length `cos pitch` and is not
the zero vector, so neither vector normalised by the look-at transform is zero. -/
theorem view_direction_unit_not_vertical (c : Camera ℝ) (hlo : -89 ≤ c.pitch)
    (hhi : c.pitch ≤ 89) :
    viewDirection ⟨Real.cos, Real.sin, Real.pi⟩ c =
        { x := Real.cos (c.yaw * (Real.pi / 180)) * Real.cos (c.pitch * (Real.pi / 180))
          y := Real.sin (c.pitch * (Real.pi / 180))
          z := Real.sin (c.yaw * (Real.pi / 180)) * Real.cos (c.pitch * (Real.pi / 180)) } ∧
      viewUp ⟨Real.cos, Real.sin, Real.pi⟩ c = { x := 0, y := 1, z := 0 } ∧
      Real.sqrt ((viewDirection ⟨Real.cos, Real.sin, Real.pi⟩ c).dot
        (viewDirection ⟨Real.cos, Real.sin, Real.pi⟩ c)) = 1 ∧
      0 < Real.cos (c.pitch * (Real.pi / 180)) ∧
      Real.sqrt ((viewDirection ⟨Real.cos, Real.sin, Real.pi⟩ c).x ^ 2 +
        (viewDirection ⟨Real.cos, Real.sin, Real.pi⟩ c).z ^ 2) =
          Real.cos (c.pitch * (Real.pi / 180)) ∧
      (lookAtArguments ⟨Real.cos, Real.sin, Real.pi⟩ c).2.1 ≠
        (lookAtArguments ⟨Real.cos, Real.sin, Real.pi⟩ c).1 ∧
      (viewDirection ⟨Real.cos, Real.sin, Real.pi⟩ c).cross
        (viewUp ⟨Real.cos, Real.sin, Real.pi⟩ c) ≠ { x := 0, y := 0, z := 0 } ∧
      Real.sqrt (((viewDirection ⟨Real.cos, Real.sin, Real.pi⟩ c).cross
        (viewUp ⟨Real.cos, Real.sin, Real.pi⟩ c)).dot
          ((viewDirection ⟨Real.cos, Real.sin, Real.pi⟩ c).cross
            (viewUp ⟨Real.cos, Real.sin, Real.pi⟩ c))) =
        Real.cos (c.pitch * (Real.pi / 180)) := by
  have hcos : 0 < Real.cos (c.pitch * (Real.pi / 180)) := cos_radians_pos c.pitch hlo hhi
  have hy := Real.cos_sq_add_sin_sq (c.yaw * (Real.pi / 180))
  have hp := Real.cos_sq_add_sin_sq (c.pitch * (Real.pi / 180))
  have hup : viewUp ⟨Real.cos, Real.sin, Real.pi⟩ c = { x := 0, y := 1, z := 0 } := rfl
  have hdir := viewDirection_eq (⟨Real.cos, Real.sin, Real.pi⟩ : Trig ℝ) c
  simp only [radians] at hdir
  have hhor : (Real.cos (c.yaw * (Real.pi / 180)) * Real.cos (c.pitch * (Real.pi / 180))) ^ 2 +
      (Real.sin (c.yaw * (Real.pi / 180)) * Real.cos (c.pitch * (Real.pi / 180))) ^ 2 =
        Real.cos (c.pitch * (Real.pi / 180)) ^ 2 := by
    linear_combination (Real.cos (c.pitch * (Real.pi / 180))) ^ 2 * hy
  refine ⟨hdir, hup, ?_, hcos, ?_, ?_, ?_, ?_⟩
  · rw [hdir]
    simp only [Vec3.dot]
    rw [Real.sqrt_eq_one]
    linear_combination hhor + hp
  · rw [hdir]
    simp only []
    rw [hhor, Real.sqrt_sq hcos.le]
  · intro heq
    have hx := congrArg Vec3.x heq
    have hz := congrArg Vec3.z heq
    simp only [lookAtArguments, Vec3.add, radians] at hx hz
    have hx0 : Real.cos (c.yaw * (Real.pi / 180)) * Real.cos (c.pitch * (Real.pi / 180)) = 0 := by
      linarith
    have hz0 : Real.sin (c.yaw * (Real.pi / 180)) * Real.cos (c.pitch * (Real.pi / 180)) = 0 := by
      linarith
    rw [hx0, hz0] at hhor
    have : Real.cos (c.pitch * (Real.pi / 180)) ^ 2 = 0 := by linarith
    have := pow_eq_zero_iff (two_ne_zero) |>.mp this
    linarith
  · rw [hdir, hup]
    intro heq
    have hx := congrArg Vec3.x heq
    have hz := congrArg Vec3.z heq
    simp only [Vec3.cross] at hx hz
    have hx0 : Real.sin (c.yaw * (Real.pi / 180)) * Real.cos (c.pitch * (Real.pi / 180)) = 0 := by
      linarith
    have hz0 : Real.cos (c.yaw * (Real.pi / 180)) * Real.cos (c.pitch * (Real.pi / 180)) = 0 := by
      linarith
    rw [hx0, hz0] at hhor
    have : Real.cos (c.pitch * (Real.pi / 180)) ^ 2 = 0 := by linarith
    have := pow_eq_zero_iff (two_ne_zero) |>.mp this
    linarith
  · rw [hdir, hup]
    simp only [Vec3.cross, Vec3.dot]
    have : (Real.sin (c.pitch * (Real.pi / 180)) * 0 -
          1 * (Real.sin (c.yaw * (Real.pi / 180)) * Real.cos (c.pitch * (Real.pi / 180)))) *
        (Real.sin (c.pitch * (Real.pi / 180)) * 0 -
          1 * (Real.sin (c.yaw * (Real.pi / 180)) * Real.cos (c.pitch * (Real.pi / 180)))) +
        (Real.sin (c.yaw * (Real.pi / 180)) * Real.cos (c.pitch * (Real.pi / 180)) * 0 -
          0 * (Real.cos (c.yaw * (Real.pi / 180)) * Real.cos (c.pitch * (Real.pi / 180)))) *
        (Real.sin (c.yaw * (Real.pi / 180)) * Real.cos (c.pitch * (Real.pi / 180)) * 0 -
          0 * (Real.cos (c.yaw * (Real.pi / 180)) * Real.cos (c.pitch * (Real.pi / 180)))) +
        (Real.cos (c.yaw * (Real.pi / 180)) * Real.cos (c.pitch * (Real.pi / 180)) * 1 -
          0 * Real.sin (c.pitch * (Real.pi / 180))) *
        (Real.cos (c.yaw * (Real.pi / 180)) * Real.cos (c.pitch * (Real.pi / 180)) * 1 -
          0 * Real.sin (c.pitch * (Real.pi / 180))) =
        Real.cos (c.pitch * (Real.pi / 180)) ^ 2 := by
      linear_combination hhor
    rw [this, Real.sqrt_sq hcos.le]

/-- Witness of C10: the initial camera (yaw -90, pitch 0) has a look direction of length 1
whose cross product with the up vector is not zero. -/
theorem view_direction_unit_not_vertical_witness :
    (-89 ≤ (camera : Camera ℝ).pitch ∧ (camera : Camera ℝ).pitch ≤ 89) ∧
      Real.sqrt ((viewDirection ⟨Real.cos, Real.sin, Real.pi⟩ (camera : Camera ℝ)).dot
        (viewDirection ⟨Real.cos, Real.sin, Real.pi⟩ (camera : Camera ℝ))) = 1 ∧
      (viewDirection ⟨Real.cos, Real.sin, Real.pi⟩ (camera : Camera ℝ)).cross
        (viewUp ⟨Real.cos, Real.sin, Real.pi⟩ (camera : Camera ℝ)) ≠
          { x := 0, y := 0, z := 0 } := by
  have hlo : -89 ≤ (camera : Camera ℝ).pitch := by norm_num [camera]
  have hhi : (camera : Camera ℝ).pitch ≤ 89 := by norm_num [camera]
  have h := view_direction_unit_not_vertical (camera : Camera ℝ) hlo hhi
  exact ⟨⟨hlo, hhi⟩, h.2.2.1, h.2.2.2.2.2.2.1⟩

end Nebulis
